import Mathlib

/-!
# Shallow embedding of `new_backend/app/utils/file_manager.py` (class `FileManager`)

The registry is Python's insertion-ordered `dict`, modelled as an association
list `List (String × FileInfo)`.  The filesystem is modelled as the list of
full paths currently present (`disk`), in directory-listing order, together
with a list of paths whose `unlink` raises an exception (`locked`) — the
only fallible filesystem call the code guards with `try/except`.
Timestamps are seconds as `Nat`; each operation takes `now` explicitly in
place of `datetime.now()`.
-/

namespace FileManager

/-- `settings.DOWNLOAD_PATH` (`app/core/config.py`, default value). -/
def DOWNLOAD_PATH : String := "/tmp/yt_downloader"

/-- `settings.FILE_EXPIRY_SECONDS` (`app/core/config.py`, default 300). -/
def FILE_EXPIRY_SECONDS : Nat := 300

/-- `FileManager.get_file_path`: `Path(settings.DOWNLOAD_PATH) / filename`. -/
def get_file_path (filename : String) : String :=
  DOWNLOAD_PATH ++ "/" ++ filename

/-- A registered record: the dict built by `register_file` (lines 82-90). -/
structure FileInfo where
  id : String
  original_filename : String
  path : String
  created_at : Nat
  expires_at : Nat
  ftype : String
  download_url : String
deriving DecidableEq, Repr

/-- The synthetic dict `get_file_info` returns for an unregistered on-disk
file (lines 120-125): it has no `created_at`/`expires_at`/`download_url`. -/
structure SynthInfo where
  id : String
  original_filename : String
  path : String
  ftype : String
deriving DecidableEq, Repr

/-- Result of `get_file_info`: `None`, a registry record, or the synthetic
registry-miss record. -/
inductive LookupResult where
  | notFound
  | record (info : FileInfo)
  | synthetic (info : SynthInfo)
deriving DecidableEq, Repr

/-- The mutable state the class methods touch: `FileManager._file_registry`
plus the managed filesystem. -/
structure State where
  registry : List (String × FileInfo)
  disk : List String
  locked : List String
deriving DecidableEq, Repr

/-- Python `dict` lookup `registry.get(k)` / `registry.pop(k, None)` value. -/
def lookupReg (reg : List (String × FileInfo)) (k : String) : Option FileInfo :=
  (reg.find? (fun e => e.1 == k)).map Prod.snd

/-- Python `dict` deletion: drop the entry with key `k`. -/
def popReg (reg : List (String × FileInfo)) (k : String) : List (String × FileInfo) :=
  reg.filter (fun e => !(e.1 == k))

/-- Python `registry[k] = v`: replace in place if the key exists, else append
(dicts preserve insertion order). -/
def insertReg (reg : List (String × FileInfo)) (k : String) (v : FileInfo) :
    List (String × FileInfo) :=
  if reg.any (fun e => e.1 == k) then
    reg.map (fun e => if e.1 == k then (k, v) else e)
  else
    reg ++ [(k, v)]

/-- The characters of a string before its first `'.'`. -/
def takeUntilDot : List Char → List Char
  | [] => []
  | c :: cs => if c = '.' then [] else c :: takeUntilDot cs

/-- `filename.split('.')[0]`: the portion before the first `'.'` (the whole
string when it has no `'.'`). -/
def baseOf (s : String) : String :=
  ⟨takeUntilDot s.data⟩

/-- `startsWithStr pre s`: `s` begins with the characters of `pre`
(Python `str.startswith`, the `glob` pattern `pre*`). -/
def startsWithStr (pre s : String) : Bool :=
  pre.data.isPrefixOf s.data

/-- The names of the files inside the managed directory (`os.listdir` /
`glob` over `settings.DOWNLOAD_PATH`), in listing order. -/
def dirListing (disk : List String) : List String :=
  disk.filterMap (fun p =>
    if startsWithStr (DOWNLOAD_PATH ++ "/") p then
      some (p.drop (DOWNLOAD_PATH.length + 1))
    else none)

/-- `FileManager.remove_file` (lines 147-162): pop the registry entry first;
if absent return `False` with no side effect; otherwise best-effort unlink
of the recorded path inside `try/except` — an exception (modelled by
`locked`) is logged and yields `False`, a missing file is not an error. -/
def remove_file (st : State) (file_id : String) : Bool × State :=
  match lookupReg st.registry file_id with
  | none => (false, st)
  | some info =>
    let st1 : State := { st with registry := popReg st.registry file_id }
    if st1.disk.contains info.path then
      if st1.locked.contains info.path then
        (false, st1)
      else
        (true, { st1 with disk := st1.disk.filter (fun p => !(p == info.path)) })
    else
      (true, st1)

/-- The single-pass match loop of `get_file_info` (lines 107-112): the first
entry whose key equals `file_id` or whose key's base equals `file_id`'s base. -/
def findMatch (reg : List (String × FileInfo)) (file_id : String) :
    Option (String × FileInfo) :=
  reg.find? (fun e => e.1 == file_id || baseOf e.1 == baseOf file_id)

/-- `FileManager.get_file_info` (lines 97-144).  On a registry miss, probe
the disk and return a synthetic record; on a hit, drop expired or
disk-missing records via `remove_file file_id` (note: the queried id, not
the matched key). -/
def get_file_info (st : State) (now : Nat) (file_id : String) :
    LookupResult × State :=
  match findMatch st.registry file_id with
  | none =>
    let potential := get_file_path file_id
    if st.disk.contains potential then
      (.synthetic ⟨file_id, file_id, potential, "unknown"⟩, st)
    else
      (.notFound, st)
  | some e =>
    let info := e.2
    if now > info.expires_at then
      (.notFound, (remove_file st file_id).2)
    else if !(st.disk.contains info.path) then
      (.notFound, (remove_file st file_id).2)
    else
      (.record info, st)

/-- `FileManager.register_file` (lines 55-94).  `Except.error ()` models the
`FileNotFoundError` raise; on the fallback path the first directory entry
prefixed by `filename.split('.')[0]` is adopted. -/
def register_file (st : State) (now : Nat)
    (filename original_filename file_type : String) :
    Except Unit (FileInfo × State) :=
  let adopted : Option String :=
    if st.disk.contains (get_file_path filename) then
      some filename
    else
      (dirListing st.disk).find? (fun n => startsWithStr (baseOf filename) n)
  match adopted with
  | none => .error ()
  | some fname =>
    let info : FileInfo :=
      { id := fname
        original_filename := original_filename
        path := get_file_path fname
        created_at := now
        expires_at := now + FILE_EXPIRY_SECONDS
        ftype := file_type
        download_url := "/api/v1/youtube/download/" ++ fname }
    .ok (info, { st with registry := insertReg st.registry fname info })

/-- The ids collected by the scan loop of `cleanup_expired_files`
(lines 171-175). -/
def expiredIds (st : State) (now : Nat) : List String :=
  (st.registry.filter (fun e => decide (now > e.2.expires_at))).map Prod.fst

/-- The removal loop of `cleanup_expired_files` (lines 178-179). -/
def removeAll (st : State) : List String → State
  | [] => st
  | i :: is => removeAll (remove_file st i).2 is

/-- `FileManager.cleanup_expired_files` (lines 165-179).  The Python
function is annotated `-> None` and has no `return` statement; its return
value is modelled as `(none : Option Nat)`. -/
def cleanup_expired_files (st : State) (now : Nat) : Option Nat × State :=
  (none, removeAll st (expiredIds st now))

/-- Split a character list at its last `'.'`: `some (pre, post)` with
`l = pre ++ '.' :: post` and no `'.'` in `post`; `none` when there is no dot. -/
def splitLastDot : List Char → Option (List Char × List Char)
  | [] => none
  | c :: cs =>
    match splitLastDot cs with
    | some r => some (c :: r.1, r.2)
    | none => if c = '.' then some ([], cs) else none

/-- `Path(p).suffix`: the extension of the final path component, following
pathlib (`name[i:]` when `0 < i < len(name) - 1` for `i` the last dot). -/
def pathSuffix (p : String) : String :=
  let name := p.data.foldl (fun acc c => if c = '/' then [] else acc ++ [c]) []
  match splitLastDot name with
  | some r => if r.1.length > 0 ∧ r.2.length > 0 then ⟨'.' :: r.2⟩ else ""
  | none => ""

/-- The media-type inference of `serve_file` (lines 214-219). -/
def mediaTypeFor (path : String) : String :=
  if pathSuffix path == ".mp3" then "audio/mpeg"
  else if pathSuffix path == ".mp4" then "video/mp4"
  else "application/octet-stream"

/-- The `FileResponse(path, filename, media_type)` the endpoint returns. -/
structure FileResponse where
  path : String
  filename : String
  media_type : String
deriving DecidableEq, Repr

/-- Result of `serve_file`: `None` or a `FileResponse`. -/
inductive ServeResult where
  | notFound
  | response (r : FileResponse)
deriving DecidableEq, Repr

/-- `FileManager.serve_file` (lines 187-225).  A registry (or synthetic)
record is served with its recorded display name and extension-inferred
media type; only when `get_file_info` returned `None` is the direct-path
probe with the generic media type reached. -/
def serve_file (st : State) (now : Nat) (file_id : String) :
    ServeResult × State :=
  let r := get_file_info st now file_id
  let st1 := r.2
  match r.1 with
  | .notFound =>
    let direct := get_file_path file_id
    if st1.disk.contains direct then
      (.response ⟨direct, file_id, "application/octet-stream"⟩, st1)
    else
      (.notFound, st1)
  | .record info =>
    if !(st1.disk.contains info.path) then
      (.notFound, (remove_file st1 file_id).2)
    else
      (.response ⟨info.path, info.original_filename, mediaTypeFor info.path⟩, st1)
  | .synthetic s =>
    if !(st1.disk.contains s.path) then
      (.notFound, (remove_file st1 file_id).2)
    else
      (.response ⟨s.path, s.original_filename, mediaTypeFor s.path⟩, st1)

/-! ## Concrete states used in witnesses and counterexamples -/

/-- A registered record for `x.mkv`. -/
def infoXmkv : FileInfo :=
  ⟨"x.mkv", "orig-mkv", get_file_path "x.mkv", 0, 300, "video",
   "/api/v1/youtube/download/x.mkv"⟩

/-- A registered record for `x.mp4`, sharing the base `x` with `infoXmkv`. -/
def infoXmp4 : FileInfo :=
  ⟨"x.mp4", "orig-mp4", get_file_path "x.mp4", 0, 300, "video",
   "/api/v1/youtube/download/x.mp4"⟩

/-- A registered record for `a.mp4`. -/
def infoAmp4 : FileInfo :=
  ⟨"a.mp4", "orig-a", get_file_path "a.mp4", 0, 300, "video",
   "/api/v1/youtube/download/a.mp4"⟩

/-- Registry holding `x.mkv` before `x.mp4`; both files on disk. -/
def stShadow : State :=
  ⟨[("x.mkv", infoXmkv), ("x.mp4", infoXmp4)],
   [get_file_path "x.mkv", get_file_path "x.mp4"], []⟩

/-- Registry holding only `x.mkv` (which expires at 300); its file on disk. -/
def stExpired : State :=
  ⟨[("x.mkv", infoXmkv)], [get_file_path "x.mkv"], []⟩

/-- Registry holding `a.mp4` whose backing file raises on deletion. -/
def stLockedA : State :=
  ⟨[("a.mp4", infoAmp4)], [get_file_path "a.mp4"], [get_file_path "a.mp4"]⟩

/-- Registry holding `a.mp4` (expires at 300); its file on disk, deletable. -/
def stSweep1 : State :=
  ⟨[("a.mp4", infoAmp4)], [get_file_path "a.mp4"], []⟩

/-- Empty registry; an unregistered file `a.mp3` on disk. -/
def stDiskOnly : State :=
  ⟨[], [get_file_path "a.mp3"], []⟩

/-- Registry holding only `x.mkv`; files `x.mkv` and `x.mp4` on disk, the
latter never registered. -/
def stShadow10 : State :=
  ⟨[("x.mkv", infoXmkv)], [get_file_path "x.mkv", get_file_path "x.mp4"], []⟩

/-- Empty registry with files `x.mkv` and `x.mp4` on disk. -/
def stTwoFiles : State :=
  ⟨[], [get_file_path "x.mkv", get_file_path "x.mp4"], []⟩

/-- The record produced by registering `x.mkv` at time 0 on `stTwoFiles`. -/
def infoReg1 : FileInfo :=
  ⟨"x.mkv", "first", get_file_path "x.mkv", 0, 300, "video",
   "/api/v1/youtube/download/x.mkv"⟩

/-- `stTwoFiles` after registering `x.mkv` at time 0. -/
def stAfter1 : State :=
  ⟨[("x.mkv", infoReg1)], [get_file_path "x.mkv", get_file_path "x.mp4"], []⟩

/-- The record produced by registering `x.mp4` at time 0 on `stAfter1`. -/
def infoReg2 : FileInfo :=
  ⟨"x.mp4", "second", get_file_path "x.mp4", 0, 300, "video",
   "/api/v1/youtube/download/x.mp4"⟩

/-- `stAfter1` after registering `x.mp4` at time 0. -/
def stAfter2 : State :=
  ⟨[("x.mkv", infoReg1), ("x.mp4", infoReg2)],
   [get_file_path "x.mkv", get_file_path "x.mp4"], []⟩

/-- A registered record for `y.mp4` (expires at 300). -/
def infoYmp4 : FileInfo :=
  ⟨"y.mp4", "orig-y", get_file_path "y.mp4", 0, 300, "video",
   "/api/v1/youtube/download/y.mp4"⟩

/-- Registry holding only `y.mp4`; its file on disk, deletable. -/
def stYexp : State :=
  ⟨[("y.mp4", infoYmp4)], [get_file_path "y.mp4"], []⟩

/-- A registered record for `b.mp4` expiring later (at 2000). -/
def infoBmp4 : FileInfo :=
  ⟨"b.mp4", "orig-b", get_file_path "b.mp4", 0, 2000, "video",
   "/api/v1/youtube/download/b.mp4"⟩

/-- Two records of which only `a.mp4` is expired at time 1000. -/
def stSweep2 : State :=
  ⟨[("a.mp4", infoAmp4), ("b.mp4", infoBmp4)],
   [get_file_path "a.mp4", get_file_path "b.mp4"], []⟩

/-- Empty registry; only the file `x.mkv` on disk. -/
def stOnlyMkv : State :=
  ⟨[], [get_file_path "x.mkv"], []⟩

/-- Empty registry; only the file `a1b2.mp4` on disk. -/
def stOneFile : State :=
  ⟨[], [get_file_path "a1b2.mp4"], []⟩

/-- The record produced by registering `a1b2.mp4` at time 0 on `stOneFile`. -/
def infoA1b2 : FileInfo :=
  ⟨"a1b2.mp4", "movie", get_file_path "a1b2.mp4", 0, 300, "video",
   "/api/v1/youtube/download/a1b2.mp4"⟩

/-- `stOneFile` after registering `a1b2.mp4` at time 0. -/
def stAfterOne : State :=
  ⟨[("a1b2.mp4", infoA1b2)], [get_file_path "a1b2.mp4"], []⟩

/-! ## Basic lemmas about the registry dictionary -/

theorem mem_of_lookupReg {reg : List (String × FileInfo)} {k : String} {info : FileInfo}
    (h : lookupReg reg k = some info) : (k, info) ∈ reg := by
  unfold lookupReg at h
  cases hf : reg.find? (fun e => e.1 == k) with
  | none => rw [hf] at h; cases h
  | some e =>
    rw [hf] at h
    have hmem := List.mem_of_find?_eq_some hf
    have hp := List.find?_some hf
    have h1 : e.1 = k := by simpa using hp
    have h2 : e.2 = info := by
      simpa using h
    have : (k, info) = e := by
      cases e
      simp_all
    rw [this]
    exact hmem

theorem lookupReg_eq_none {reg : List (String × FileInfo)} {k : String} :
    lookupReg reg k = none ↔ ∀ e ∈ reg, e.1 ≠ k := by
  unfold lookupReg
  simp [List.find?_eq_none]

theorem lookupReg_popReg_self (reg : List (String × FileInfo)) (k : String) :
    lookupReg (popReg reg k) k = none := by
  rw [lookupReg_eq_none]
  intro e he
  have := List.mem_filter.1 he
  simpa using this.2

theorem find?_filter_of_fail {α : Type} {p q : α → Bool} :
    ∀ (l : List α), (∀ e ∈ l, q e = false → p e = false) →
      (l.filter q).find? p = l.find? p
  | [], _ => rfl
  | a :: l, h => by
    by_cases hq : q a
    · rw [List.filter_cons_of_pos hq]
      by_cases hp : p a
      · rw [List.find?_cons_of_pos _ hp, List.find?_cons_of_pos _ hp]
      · rw [List.find?_cons_of_neg _ hp, List.find?_cons_of_neg _ hp]
        exact find?_filter_of_fail l (fun e he => h e (List.mem_cons_of_mem a he))
    · have hp : p a = false := h a (List.mem_cons_self a l) (by simpa using hq)
      rw [List.filter_cons_of_neg (by simpa using hq), List.find?_cons_of_neg _ (by simp [hp])]
      exact find?_filter_of_fail l (fun e he => h e (List.mem_cons_of_mem a he))

theorem lookupReg_popReg_ne {i k : String} (reg : List (String × FileInfo)) (h : i ≠ k) :
    lookupReg (popReg reg k) i = lookupReg reg i := by
  unfold lookupReg popReg
  rw [find?_filter_of_fail]
  intro e _ hq
  have : e.1 = k := by simpa using hq
  simp [this, Ne.symm h]

/-! ## Lemmas about `remove_file` -/

theorem remove_file_absent {st : State} {i : String}
    (h : lookupReg st.registry i = none) : remove_file st i = (false, st) := by
  unfold remove_file
  rw [h]

theorem remove_file_present {st : State} {i : String} {info : FileInfo}
    (h : lookupReg st.registry i = some info) :
    remove_file st i =
      (!(decide (info.path ∈ st.disk) && decide (info.path ∈ st.locked)),
       { registry := popReg st.registry i,
         disk := if info.path ∈ st.disk ∧ info.path ∉ st.locked
                 then st.disk.filter (fun p => !(p == info.path)) else st.disk,
         locked := st.locked }) := by
  unfold remove_file
  rw [h]
  by_cases h1 : info.path ∈ st.disk <;> by_cases h2 : info.path ∈ st.locked <;>
    simp [h1, h2]

theorem remove_file_disk {st : State} {i : String} {info : FileInfo}
    (h : lookupReg st.registry i = some info) :
    (remove_file st i).2.disk =
      if info.path ∈ st.disk ∧ info.path ∉ st.locked
      then st.disk.filter (fun p => !(p == info.path)) else st.disk := by
  rw [remove_file_present h]

theorem remove_file_false_iff {st : State} {i : String} {info : FileInfo}
    (h : lookupReg st.registry i = some info) :
    ((remove_file st i).1 = false ↔ info.path ∈ st.disk ∧ info.path ∈ st.locked) := by
  rw [remove_file_present h]
  by_cases h1 : info.path ∈ st.disk <;> by_cases h2 : info.path ∈ st.locked <;>
    simp [h1, h2]

theorem remove_file_registry (st : State) (i : String) :
    (remove_file st i).2.registry = popReg st.registry i := by
  cases h : lookupReg st.registry i with
  | none =>
    rw [remove_file_absent h]
    unfold popReg
    symm
    rw [List.filter_eq_self]
    intro e he
    have := lookupReg_eq_none.1 h e he
    simpa using this
  | some info =>
    rw [remove_file_present h]

theorem remove_file_locked (st : State) (i : String) :
    (remove_file st i).2.locked = st.locked := by
  cases h : lookupReg st.registry i with
  | none => rw [remove_file_absent h]
  | some info => rw [remove_file_present h]

theorem remove_file_disk_subset {st : State} {i : String} {p : String}
    (h : p ∈ (remove_file st i).2.disk) : p ∈ st.disk := by
  cases hl : lookupReg st.registry i with
  | none => rw [remove_file_absent hl] at h; exact h
  | some info =>
    rw [remove_file_disk hl] at h
    by_cases hc : info.path ∈ st.disk ∧ info.path ∉ st.locked
    · rw [if_pos hc] at h
      exact (List.mem_filter.1 h).1
    · rw [if_neg hc] at h
      exact h

/-! ## Lemmas about the removal loop `removeAll` -/

theorem removeAll_locked : ∀ (ids : List String) (st : State),
    (removeAll st ids).locked = st.locked
  | [], _ => rfl
  | i :: is, st => by
    rw [removeAll, removeAll_locked is, remove_file_locked]

theorem removeAll_disk_subset : ∀ (ids : List String) (st : State) (p : String),
    p ∈ (removeAll st ids).disk → p ∈ st.disk
  | [], _, _, h => h
  | i :: is, st, p, h => by
    rw [removeAll] at h
    exact remove_file_disk_subset (removeAll_disk_subset is _ p h)

theorem removeAll_registry : ∀ (ids : List String) (st : State),
    (removeAll st ids).registry = st.registry.filter (fun e => !(ids.contains e.1))
  | [], st => by simp [removeAll]
  | i :: is, st => by
    rw [removeAll, removeAll_registry is, remove_file_registry]
    unfold popReg
    rw [List.filter_filter]
    apply List.filter_congr
    intro e _
    by_cases h1 : e.1 = i <;> by_cases h2 : e.1 ∈ is <;> simp [h1, h2]

theorem removeAll_disk_keep : ∀ (ids : List String) (st : State) (p : String),
    p ∈ st.disk → (∀ e ∈ st.registry, e.1 ∈ ids → e.2.path ≠ p) →
    p ∈ (removeAll st ids).disk
  | [], _, _, hp, _ => hp
  | i :: is, st, p, hp, hsafe => by
    rw [removeAll]
    cases hl : lookupReg st.registry i with
    | none =>
      rw [remove_file_absent hl]
      exact removeAll_disk_keep is st p hp
        (fun e he hc => hsafe e he (List.mem_cons_of_mem i hc))
    | some info =>
      have hinfo : info.path ≠ p :=
        hsafe (i, info) (mem_of_lookupReg hl) (List.mem_cons_self i is)
      apply removeAll_disk_keep is
      · rw [remove_file_disk hl]
        by_cases hc : info.path ∈ st.disk ∧ info.path ∉ st.locked
        · rw [if_pos hc, List.mem_filter]
          refine ⟨hp, ?_⟩
          simpa using Ne.symm hinfo
        · rw [if_neg hc]
          exact hp
      · intro e he hc
        rw [remove_file_registry] at he
        exact hsafe e (List.mem_of_mem_filter he) (List.mem_cons_of_mem i hc)

theorem removeAll_disk_gone : ∀ (ids : List String) (st : State) (i : String) (info : FileInfo),
    i ∈ ids → lookupReg st.registry i = some info →
    info.path ∉ st.locked →
    info.path ∉ (removeAll st ids).disk
  | [], _, _, _, h, _, _ => absurd h (List.not_mem_nil _)
  | i0 :: is, st, i, info, hmem, hlk, hnl => by
    by_cases heq : i = i0
    · subst heq
      rw [removeAll]
      intro hcontra
      have hsub := removeAll_disk_subset is _ _ hcontra
      rw [remove_file_disk hlk] at hsub
      by_cases h1 : info.path ∈ st.disk
      · rw [if_pos ⟨h1, hnl⟩] at hsub
        have h2 := (List.mem_filter.1 hsub).2
        simp at h2
      · rw [if_neg (fun hc => h1 hc.1)] at hsub
        exact h1 hsub
    · have hmem2 : i ∈ is := by
        rcases List.mem_cons.1 hmem with h | h
        · exact absurd h heq
        · exact h
      rw [removeAll]
      cases h0 : lookupReg st.registry i0 with
      | none =>
        rw [remove_file_absent h0]
        exact removeAll_disk_gone is st i info hmem2 hlk hnl
      | some info0 =>
        apply removeAll_disk_gone is _ i info hmem2
        · rw [remove_file_registry]
          rw [lookupReg_popReg_ne _ heq]
          exact hlk
        · rw [remove_file_locked]
          exact hnl

theorem length_filter_split {α : Type} (p : α → Bool) : ∀ (l : List α),
    l.length = (l.filter (fun a => !(p a))).length + (l.filter p).length
  | [] => rfl
  | a :: l => by
    by_cases h : p a <;>
      simp [List.filter_cons, h, length_filter_split p l] <;> omega

theorem lookupReg_of_mem_nodup : ∀ (reg : List (String × FileInfo)),
    (reg.map Prod.fst).Nodup → ∀ e ∈ reg, lookupReg reg e.1 = some e.2
  | [], _, e, he => absurd he (List.not_mem_nil e)
  | f :: l, hnd, e, he => by
    rcases List.mem_cons.1 he with h | h
    · subst h
      unfold lookupReg
      rw [List.find?_cons_of_pos _ (by simp)]
      rfl
    · have hnd2 := List.nodup_cons.1 hnd
      have hne : f.1 ≠ e.1 := by
        intro hfe
        exact hnd2.1 (hfe ▸ List.mem_map.2 ⟨e, h, rfl⟩)
      unfold lookupReg
      rw [List.find?_cons_of_neg _ (by simp [hne])]
      exact lookupReg_of_mem_nodup l hnd2.2 e h

/-! ## Lemmas about the managed-directory listing and the match loop -/

theorem mem_dirListing {disk : List String} {n : String} (h : n ∈ dirListing disk) :
    get_file_path n ∈ disk := by
  unfold dirListing at h
  rw [List.mem_filterMap] at h
  obtain ⟨p, hp, he⟩ := h
  by_cases hpre : startsWithStr (DOWNLOAD_PATH ++ "/") p
  · rw [if_pos hpre] at he
    have hn : n = p.drop (DOWNLOAD_PATH.length + 1) := by
      injection he with he1
      exact he1.symm
    unfold startsWithStr at hpre
    rw [List.isPrefixOf_iff_prefix] at hpre
    obtain ⟨t, ht⟩ := hpre
    have hlen : ((DOWNLOAD_PATH ++ "/").data).length = DOWNLOAD_PATH.length + 1 := rfl
    have hkey : get_file_path n = p := by
      apply String.ext
      calc (get_file_path n).data
          = (DOWNLOAD_PATH ++ "/").data ++ n.data := by
            simp [get_file_path]
        _ = (DOWNLOAD_PATH ++ "/").data
              ++ List.drop (DOWNLOAD_PATH.length + 1) p.data := by
            rw [hn, String.data_drop]
        _ = (DOWNLOAD_PATH ++ "/").data
              ++ List.drop (DOWNLOAD_PATH.length + 1)
                   ((DOWNLOAD_PATH ++ "/").data ++ t) := by
            rw [ht]
        _ = (DOWNLOAD_PATH ++ "/").data ++ t := by
            rw [List.drop_left' hlen]
        _ = p.data := ht
    rw [hkey]
    exact hp
  · rw [if_neg hpre] at he
    cases he

theorem findMatch_of_only_exact : ∀ (reg : List (String × FileInfo)) (k : String)
    (info : FileInfo),
    lookupReg reg k = some info →
    (∀ e ∈ reg, baseOf e.1 = baseOf k → e.1 = k) →
    findMatch reg k = some (k, info)
  | [], k, info, h, _ => by simp [lookupReg] at h
  | (a, b) :: l, k, info, h, honly => by
    by_cases hak : a = k
    · subst hak
      have h2 : b = info := by simpa [lookupReg] using h
      simp [findMatch, h2]
    · have hbase : baseOf a ≠ baseOf k :=
        fun hb => hak (honly (a, b) (List.mem_cons_self (a, b) l) hb)
      have h3 : lookupReg l k = some info := by
        simpa [lookupReg, hak] using h
      have ih := findMatch_of_only_exact l k info h3
        (fun e2 he2 hb => honly e2 (List.mem_cons_of_mem (a, b) he2) hb)
      simpa [findMatch, hak, hbase] using ih

theorem register_file_ok_spec {st : State} {now : Nat}
    {filename original_filename file_type : String} {info : FileInfo} {st2 : State}
    (hok : register_file st now filename original_filename file_type =
      Except.ok (info, st2)) :
    info.path = get_file_path info.id ∧
    info.expires_at = now + FILE_EXPIRY_SECONDS ∧
    get_file_path info.id ∈ st.disk ∧
    st2.registry = insertReg st.registry info.id info ∧
    st2.disk = st.disk ∧
    st2.locked = st.locked := by
  simp only [register_file] at hok
  split at hok
  · exact Except.noConfusion hok
  · rename_i fname hadopt
    injection hok with h1
    injection h1 with hA hB
    subst hB
    subst hA
    refine ⟨rfl, rfl, ?_, rfl, rfl, rfl⟩
    show get_file_path fname ∈ st.disk
    by_cases hd : st.disk.contains (get_file_path filename) = true
    · rw [if_pos hd] at hadopt
      injection hadopt with hfn
      subst hfn
      simpa using hd
    · rw [if_neg hd] at hadopt
      exact mem_dirListing (List.mem_of_find?_eq_some hadopt)

/-! ## Counterexamples -/

/-- C1, counterexample: the expired record `x.mkv` is matched by base for the
query `x.mp4`; `get_file_info` reports `NotFound` but, because the deletion
uses the queried id rather than the matched key, it deletes neither the index
entry nor the backing file — the state is returned unchanged. -/
theorem C1_counterexample :
    findMatch stExpired.registry "x.mp4" = some ("x.mkv", infoXmkv) ∧
    (1000 : Nat) > infoXmkv.expires_at ∧
    get_file_info stExpired 1000 "x.mp4" = (LookupResult.notFound, stExpired) ∧
    lookupReg stExpired.registry "x.mkv" = some infoXmkv ∧
    get_file_path "x.mkv" ∈ stExpired.disk :=
  ⟨by decide, by decide, by decide, by decide, by decide⟩

/-- C2, counterexample: an entry for `a.mp4` is present, yet `remove_file`
returns `false` because deleting the backing file raises — contradicting
"returns true iff an entry was present / still reports success". -/
theorem C2_counterexample :
    lookupReg stLockedA.registry "a.mp4" = some infoAmp4 ∧
    (remove_file stLockedA "a.mp4").1 = false :=
  ⟨by decide, by decide⟩

/-- C3, counterexample: a record stored under exactly the queried id `x.mp4`
is shadowed by the earlier-inserted record `x.mkv` whose base merely
matches — the lookup is a single pass in insertion order, not exact-first. -/
theorem C3_counterexample :
    lookupReg stShadow.registry "x.mp4" = some infoXmp4 ∧
    (get_file_info stShadow 0 "x.mp4").1 = LookupResult.record infoXmkv ∧
    infoXmkv ≠ infoXmp4 :=
  ⟨by decide, by decide, by decide⟩

/-- C4, counterexample: with exactly one expired record (`M = 1`) the sweep
removes it but its Python return value is `None`, not the count `1`. -/
theorem C4_counterexample :
    expiredIds stSweep1 1000 = ["a.mp4"] ∧
    (cleanup_expired_files stSweep1 1000).1 = none ∧
    (cleanup_expired_files stSweep1 1000).1 ≠ some 1 :=
  ⟨by decide, by decide, by decide⟩

/-- C7, counterexample: the unregistered on-disk file `a.mp3` is served with
media type `audio/mpeg` inferred from its extension (via the synthetic
registry-miss record), not the generic `application/octet-stream`. -/
theorem C7_counterexample :
    lookupReg stDiskOnly.registry "a.mp3" = none ∧
    get_file_path "a.mp3" ∈ stDiskOnly.disk ∧
    (serve_file stDiskOnly 0 "a.mp3").1 =
      ServeResult.response ⟨get_file_path "a.mp3", "a.mp3", "audio/mpeg"⟩ ∧
    "audio/mpeg" ≠ "application/octet-stream" :=
  ⟨by decide, by decide, by decide, by decide⟩

/-- C8, counterexample: after registering `x.mkv` and then `x.mp4`, a lookup
of the just-registered `x.mp4` returns the earlier record `x.mkv` (its base
matches and it comes first in insertion order), not the record register_file
just returned. -/
theorem C8_counterexample :
    register_file stTwoFiles 0 "x.mkv" "first" "video" =
      Except.ok (infoReg1, stAfter1) ∧
    register_file stAfter1 0 "x.mp4" "second" "video" =
      Except.ok (infoReg2, stAfter2) ∧
    (get_file_info stAfter2 0 "x.mp4").1 = LookupResult.record infoReg1 ∧
    infoReg1 ≠ infoReg2 :=
  ⟨rfl, rfl, by decide, by decide⟩

/-- C10, counterexample: the file `x.mp4` exists in the managed directory
and was never registered, yet `get_file_info` does not return the synthetic
`"unknown"` record for it — the registered `x.mkv` matches by base first. -/
theorem C10_counterexample :
    lookupReg stShadow10.registry "x.mp4" = none ∧
    get_file_path "x.mp4" ∈ stShadow10.disk ∧
    (get_file_info stShadow10 0 "x.mp4").1 = LookupResult.record infoXmkv ∧
    (get_file_info stShadow10 0 "x.mp4").1 ≠
      LookupResult.synthetic ⟨"x.mp4", "x.mp4", get_file_path "x.mp4", "unknown"⟩ :=
  ⟨by decide, by decide, by decide, by decide⟩

/-! ## Claim theorems -/

/-- C2, amended: `remove_file` returns `false` with no side effect on an
unregistered id; when an entry is present, the index entry is removed
unconditionally and the call returns `true` exactly when deleting the
backing file does not raise — a raised deletion is logged, swallowed, and
reported as `false` (not as success). -/
theorem C2_remove_semantics (st : State) (file_id : String) :
    (lookupReg st.registry file_id = none → remove_file st file_id = (false, st)) ∧
    (∀ info, lookupReg st.registry file_id = some info →
      (remove_file st file_id).2.registry = popReg st.registry file_id ∧
      ((remove_file st file_id).1 = true ↔
        ¬(info.path ∈ st.disk ∧ info.path ∈ st.locked))) := by
  constructor
  · exact fun h => remove_file_absent h
  · intro info h
    refine ⟨remove_file_registry st file_id, ?_⟩
    rw [← remove_file_false_iff h]
    simp

/-- C2, witness: the amended remove semantics evaluated on `stLockedA`,
where the entry is present and the deletion raises. -/
theorem C2_witness :
    (remove_file stLockedA "a.mp4").2.registry = popReg stLockedA.registry "a.mp4" ∧
    ((remove_file stLockedA "a.mp4").1 = true ↔
      ¬(infoAmp4.path ∈ stLockedA.disk ∧ infoAmp4.path ∈ stLockedA.locked)) :=
  (C2_remove_semantics stLockedA "a.mp4").2 infoAmp4 (by decide)

/-- C9: whenever an entry for the id is present, `remove_file` pops it
before attempting file deletion, so after the call the registry no longer
contains the id whatever boolean is returned; `false` is returned exactly
when the present entry's file was on disk and its deletion raised, so a
`false` return does not imply the registry was left unchanged. -/
theorem C9_remove_pops_first (st : State) (file_id : String) (info : FileInfo)
    (h : lookupReg st.registry file_id = some info) :
    lookupReg (remove_file st file_id).2.registry file_id = none ∧
    (remove_file st file_id).2.registry = popReg st.registry file_id ∧
    ((remove_file st file_id).1 = false ↔
      info.path ∈ st.disk ∧ info.path ∈ st.locked) := by
  refine ⟨?_, remove_file_registry st file_id, remove_file_false_iff h⟩
  rw [remove_file_registry]
  exact lookupReg_popReg_self st.registry file_id

/-- C9, witness: on `stLockedA` the call returns `false` yet the entry for
`a.mp4` is gone from the registry. -/
theorem C9_witness :
    lookupReg (remove_file stLockedA "a.mp4").2.registry "a.mp4" = none ∧
    (remove_file stLockedA "a.mp4").2.registry = popReg stLockedA.registry "a.mp4" ∧
    ((remove_file stLockedA "a.mp4").1 = false ↔
      infoAmp4.path ∈ stLockedA.disk ∧ infoAmp4.path ∈ stLockedA.locked) :=
  C9_remove_pops_first stLockedA "a.mp4" infoAmp4 (by decide)

/-- C3, amended: `get_file_info` matches in a single pass over the registry
in insertion order, returning the record of the first stored key that equals
the queried id or whose base equals the queried id's base; when that record
is unexpired and its file on disk it is the result — so an exact match can
be shadowed by an earlier record whose base merely matches. -/
theorem C3_first_match_semantics (st : State) (now : Nat) (file_id : String)
    (pre post : List (String × FileInfo)) (k : String) (info : FileInfo)
    (hreg : st.registry = pre ++ (k, info) :: post)
    (hpre : ∀ e ∈ pre, e.1 ≠ file_id ∧ baseOf e.1 ≠ baseOf file_id)
    (hk : k = file_id ∨ baseOf k = baseOf file_id)
    (hlive : ¬ now > info.expires_at)
    (hdisk : info.path ∈ st.disk) :
    (get_file_info st now file_id).1 = LookupResult.record info := by
  have h1 : pre.find? (fun e => e.1 == file_id || baseOf e.1 == baseOf file_id)
      = none := by
    rw [List.find?_eq_none]
    intro e he
    have h2 := hpre e he
    simp [h2.1, h2.2]
  have h2 : ((k, info) :: post).find?
      (fun e => e.1 == file_id || baseOf e.1 == baseOf file_id) = some (k, info) := by
    apply List.find?_cons_of_pos
    rcases hk with h | h <;> simp [h]
  have hfind : findMatch st.registry file_id = some (k, info) := by
    unfold findMatch
    rw [hreg, List.find?_append, h1, h2]
    rfl
  have hc : st.disk.contains info.path = true := by simpa using hdisk
  simp only [get_file_info, hfind]
  rw [if_neg hlive]
  simp [hc, hdisk]

/-- C3, witness: on `stShadow` the query `x.mp4` is answered by the earlier
base-matching record `x.mkv`. -/
theorem C3_witness :
    (get_file_info stShadow 0 "x.mp4").1 = LookupResult.record infoXmkv :=
  C3_first_match_semantics stShadow 0 "x.mp4" [] [("x.mp4", infoXmp4)]
    "x.mkv" infoXmkv rfl (by simp) (Or.inr (by decide)) (by decide) (by decide)

/-- C1, amended: lazy expiry deletes only exactly-keyed matches.  When the
queried id is itself the stored key of the matching record (and no other
stored key shares its base), an expired lookup reports `NotFound`, removes
the index entry and deletes the backing file (the deletion not raising),
after which a repeated lookup still reports `NotFound` and the file is gone
from disk.  When the expired record is matched only by base, the removal is
keyed on the queried id and deletes nothing (`C1_counterexample`). -/
theorem C1_exact_expiry (st : State) (now : Nat) (file_id : String) (info : FileInfo)
    (hlook : lookupReg st.registry file_id = some info)
    (honly : ∀ e ∈ st.registry, baseOf e.1 = baseOf file_id → e.1 = file_id)
    (hexp : now > info.expires_at)
    (hnl : info.path ∉ st.locked)
    (hpath : info.path = get_file_path file_id) :
    (get_file_info st now file_id).1 = LookupResult.notFound ∧
    lookupReg (get_file_info st now file_id).2.registry file_id = none ∧
    info.path ∉ (get_file_info st now file_id).2.disk ∧
    (get_file_info (get_file_info st now file_id).2 now file_id).1 =
      LookupResult.notFound := by
  have hfind := findMatch_of_only_exact st.registry file_id info hlook honly
  have hmain : get_file_info st now file_id =
      (LookupResult.notFound, (remove_file st file_id).2) := by
    simp only [get_file_info, hfind]
    rw [if_pos hexp]
  have hgone : info.path ∉ (remove_file st file_id).2.disk := by
    rw [remove_file_disk hlook]
    by_cases h1 : info.path ∈ st.disk
    · rw [if_pos ⟨h1, hnl⟩]
      intro hmem
      have h2 := (List.mem_filter.1 hmem).2
      simp at h2
    · rw [if_neg (fun hc => h1 hc.1)]
      exact h1
  have hnone : findMatch (remove_file st file_id).2.registry file_id = none := by
    unfold findMatch
    rw [List.find?_eq_none]
    intro e he hp
    rw [remove_file_registry] at he
    have hmem := List.mem_of_mem_filter he
    have hkey : e.1 ≠ file_id := by
      have h2 := (List.mem_filter.1 he).2
      simpa using h2
    simp at hp
    rcases hp with h | h
    · exact hkey h
    · exact hkey (honly e hmem h)
  have hc2 : ((remove_file st file_id).2.disk.contains (get_file_path file_id))
      = false := by
    rw [← hpath]
    simpa using hgone
  rw [hmain]
  refine ⟨rfl, ?_, hgone, ?_⟩
  · rw [remove_file_registry]
    exact lookupReg_popReg_self st.registry file_id
  · have hnm : get_file_path file_id ∉ (remove_file st file_id).2.disk :=
      hpath ▸ hgone
    simp only [get_file_info, hnone]
    simp [hc2, hnm]

/-- C1, witness: the exactly-matched record `y.mp4`, expired at time 1000,
is removed together with its file and stays gone. -/
theorem C1_witness :
    (get_file_info stYexp 1000 "y.mp4").1 = LookupResult.notFound ∧
    lookupReg (get_file_info stYexp 1000 "y.mp4").2.registry "y.mp4" = none ∧
    infoYmp4.path ∉ (get_file_info stYexp 1000 "y.mp4").2.disk ∧
    (get_file_info (get_file_info stYexp 1000 "y.mp4").2 1000 "y.mp4").1 =
      LookupResult.notFound :=
  C1_exact_expiry stYexp 1000 "y.mp4" infoYmp4 (by decide) (by decide) (by decide)
    (by decide) (by decide)

/-- C4, amended: when M of the N stored records are expired (distinct keys
and backing paths, files on disk, deletions not raising), the sweep removes
exactly those M — the registry keeps precisely the unexpired entries, the
expired records' files are deleted from disk, and every remaining id is
still retrievable through `get_file_info` — but the function returns `None`
(the Python function is annotated `-> None`), not the count M. -/
theorem C4_sweep_semantics (st : State) (now : Nat)
    (hkeys : (st.registry.map Prod.fst).Nodup)
    (hpaths : (st.registry.map (fun e => e.2.path)).Nodup)
    (hdisk : ∀ e ∈ st.registry, e.2.path ∈ st.disk)
    (hlock : ∀ e ∈ st.registry, e.2.path ∉ st.locked) :
    (cleanup_expired_files st now).1 = none ∧
    (cleanup_expired_files st now).2.registry =
      st.registry.filter (fun e => !decide (now > e.2.expires_at)) ∧
    st.registry.length =
      (cleanup_expired_files st now).2.registry.length +
        (st.registry.filter (fun e => decide (now > e.2.expires_at))).length ∧
    (∀ e ∈ st.registry, now > e.2.expires_at →
      e.2.path ∉ (cleanup_expired_files st now).2.disk) ∧
    (∀ e ∈ st.registry, ¬ now > e.2.expires_at →
      (get_file_info (cleanup_expired_files st now).2 now e.1).1 ≠
        LookupResult.notFound) := by
  have hcontains : ∀ e ∈ st.registry,
      (expiredIds st now).contains e.1 = decide (now > e.2.expires_at) := by
    intro e he
    cases hexp : decide (now > e.2.expires_at) with
    | true =>
      have hmem : e.1 ∈ expiredIds st now :=
        List.mem_map.2 ⟨e, List.mem_filter.2 ⟨he, hexp⟩, rfl⟩
      simpa using hmem
    | false =>
      have hno : e.1 ∉ expiredIds st now := by
        intro hmem2
        obtain ⟨e2, he2, heq⟩ := List.mem_map.1 hmem2
        have he2f := List.mem_filter.1 he2
        have he2e : e2 = e := List.inj_on_of_nodup_map hkeys he2f.1 he heq
        have he2x : decide (now > e.2.expires_at) = true := by
          have h4 := he2f.2
          rwa [he2e] at h4
        rw [he2x] at hexp
        cases hexp
      simpa using hno
  have hreg2 : (cleanup_expired_files st now).2.registry =
      st.registry.filter (fun e => !decide (now > e.2.expires_at)) := by
    show (removeAll st (expiredIds st now)).registry = _
    rw [removeAll_registry]
    apply List.filter_congr
    intro e he
    simp only [hcontains e he]
  have hlen : st.registry.length =
      (cleanup_expired_files st now).2.registry.length +
        (st.registry.filter (fun e => decide (now > e.2.expires_at))).length := by
    rw [hreg2]
    exact length_filter_split (fun e => decide (now > e.2.expires_at)) st.registry
  have hgone : ∀ e ∈ st.registry, now > e.2.expires_at →
      e.2.path ∉ (cleanup_expired_files st now).2.disk := by
    intro e he hexp
    show e.2.path ∉ (removeAll st (expiredIds st now)).disk
    have hmem : e.1 ∈ expiredIds st now :=
      List.mem_map.2 ⟨e, List.mem_filter.2 ⟨he, by simpa using hexp⟩, rfl⟩
    exact removeAll_disk_gone (expiredIds st now) st e.1 e.2 hmem
      (lookupReg_of_mem_nodup st.registry hkeys e he) (hlock e he)
  have hret : ∀ e ∈ st.registry, ¬ now > e.2.expires_at →
      (get_file_info (cleanup_expired_files st now).2 now e.1).1 ≠
        LookupResult.notFound := by
    intro e he hexp
    show (get_file_info (removeAll st (expiredIds st now)) now e.1).1 ≠ _
    have he2 : e ∈ (removeAll st (expiredIds st now)).registry := by
      rw [removeAll_registry]
      refine List.mem_filter.2 ⟨he, ?_⟩
      have hx : (expiredIds st now).contains e.1 = false := by
        rw [hcontains e he]
        simpa using hexp
      simp only [hx, Bool.not_false]
    have hfs : ((removeAll st (expiredIds st now)).registry.find?
        (fun g => g.1 == e.1 || baseOf g.1 == baseOf e.1)).isSome := by
      rw [List.find?_isSome]
      exact ⟨e, he2, by simp⟩
    obtain ⟨f, hf⟩ := Option.isSome_iff_exists.1 hfs
    have hfmem := List.mem_of_find?_eq_some hf
    have hfmem2 : f ∈ st.registry ∧ ¬ now > f.2.expires_at := by
      rw [removeAll_registry] at hfmem
      have h3 := List.mem_filter.1 hfmem
      refine ⟨h3.1, ?_⟩
      have h4 := h3.2
      simp only [Bool.not_eq_true'] at h4
      rw [hcontains f h3.1] at h4
      simpa using h4
    have hfdisk : f.2.path ∈ (removeAll st (expiredIds st now)).disk := by
      apply removeAll_disk_keep
      · exact hdisk f hfmem2.1
      · intro e3 he3 hc3
        obtain ⟨e4, he4, heq4⟩ := List.mem_map.1 hc3
        have he4f := List.mem_filter.1 he4
        have he4e : e4 = e3 := List.inj_on_of_nodup_map hkeys he4f.1 he3 heq4
        have hexp3 : decide (now > e3.2.expires_at) = true := by
          have h5 := he4f.2
          rwa [he4e] at h5
        intro hpe
        have he3f : e3 = f :=
          List.inj_on_of_nodup_map hpaths he3 hfmem2.1 hpe
        rw [he3f] at hexp3
        simp at hexp3
        exact hfmem2.2 hexp3
    have hfind2 : findMatch (removeAll st (expiredIds st now)).registry e.1
        = some f := hf
    have hcf : ((removeAll st (expiredIds st now)).disk.contains f.2.path)
        = true := by
      simpa using hfdisk
    have hrec : (get_file_info (removeAll st (expiredIds st now)) now e.1).1 =
        LookupResult.record f.2 := by
      simp only [get_file_info, hfind2]
      rw [if_neg hfmem2.2]
      simp [hcf, hfdisk]
    rw [hrec]
    simp
  exact ⟨rfl, hreg2, hlen, hgone, hret⟩

/-- C4, witness: the amended sweep semantics evaluated on `stSweep2`, where
one of the two records is expired at time 1000. -/
theorem C4_witness :
    (cleanup_expired_files stSweep2 1000).1 = none ∧
    (cleanup_expired_files stSweep2 1000).2.registry =
      stSweep2.registry.filter (fun e => !decide ((1000 : Nat) > e.2.expires_at)) ∧
    stSweep2.registry.length =
      (cleanup_expired_files stSweep2 1000).2.registry.length +
        (stSweep2.registry.filter
          (fun e => decide ((1000 : Nat) > e.2.expires_at))).length ∧
    (∀ e ∈ stSweep2.registry, 1000 > e.2.expires_at →
      e.2.path ∉ (cleanup_expired_files stSweep2 1000).2.disk) ∧
    (∀ e ∈ stSweep2.registry, ¬ 1000 > e.2.expires_at →
      (get_file_info (cleanup_expired_files stSweep2 1000).2 1000 e.1).1 ≠
        LookupResult.notFound) :=
  C4_sweep_semantics stSweep2 1000 (by decide) (by decide) (by decide) (by decide)

/-- C5: `register_file` first checks for a file at `managed_dir/filename`;
when it is missing it scans the managed directory for any file name prefixed
by the portion of `filename` before the first `'.'` and adopts the first
match (the record's id and path become the adopted name, the disk is
untouched), and it raises `FileNotFoundError` exactly when the file is
missing and the fallback scan also finds no match. -/
theorem C5_register_fallback (st : State) (now : Nat)
    (filename original_filename file_type : String) :
    (register_file st now filename original_filename file_type = Except.error () ↔
      get_file_path filename ∉ st.disk ∧
      (dirListing st.disk).find? (fun n => startsWithStr (baseOf filename) n)
        = none) ∧
    (∀ n, get_file_path filename ∉ st.disk →
      (dirListing st.disk).find? (fun n => startsWithStr (baseOf filename) n)
        = some n →
      ∃ info st2,
        register_file st now filename original_filename file_type =
          Except.ok (info, st2) ∧
        info.id = n ∧ info.path = get_file_path n ∧ st2.disk = st.disk) ∧
    (get_file_path filename ∈ st.disk →
      ∃ info st2,
        register_file st now filename original_filename file_type =
          Except.ok (info, st2) ∧ info.id = filename) := by
  by_cases hd : st.disk.contains (get_file_path filename) = true
  · have hmem : get_file_path filename ∈ st.disk := by simpa using hd
    refine ⟨?_, ?_, ?_⟩
    · constructor
      · intro herr
        exfalso
        simp only [register_file, if_pos hd] at herr
        exact Except.noConfusion herr
      · intro hcon
        exact absurd hmem hcon.1
    · intro n hnot _
      exact absurd hmem hnot
    · intro _
      simp only [register_file, if_pos hd]
      exact ⟨_, _, rfl, rfl⟩
  · have hnot : get_file_path filename ∉ st.disk := by simpa using hd
    cases hf : (dirListing st.disk).find? (fun n => startsWithStr (baseOf filename) n) with
    | none =>
      refine ⟨?_, ?_, ?_⟩
      · constructor
        · intro _
          exact ⟨hnot, rfl⟩
        · intro _
          simp only [register_file, if_neg hd, hf]
      · intro n _ hsome
        exact Option.noConfusion hsome
      · intro hmem
        exact absurd hmem hnot
    | some n =>
      refine ⟨?_, ?_, ?_⟩
      · constructor
        · intro herr
          exfalso
          simp only [register_file, if_neg hd, hf] at herr
          exact Except.noConfusion herr
        · intro hcon
          exact Option.noConfusion hcon.2
      · intro n2 _ hsome
        injection hsome with hn2
        subst hn2
        simp only [register_file, if_neg hd, hf]
        exact ⟨_, _, rfl, rfl, rfl, rfl⟩
      · intro hmem
        exact absurd hmem hnot

/-- C5, witness: registering `x.mp4` when only `x.mkv` is on disk adopts
`x.mkv`; the record's id is `x.mkv` and its path ends in `.mkv`. -/
theorem C5_witness :
    ∃ info st2,
      register_file stOnlyMkv 0 "x.mp4" "orig" "video" = Except.ok (info, st2) ∧
      info.id = "x.mkv" ∧ info.path = get_file_path "x.mkv" ∧
      st2.disk = stOnlyMkv.disk :=
  (C5_register_fallback stOnlyMkv 0 "x.mp4" "orig" "video").2.1 "x.mkv"
    (by decide) (by decide)

/-- C7, amended: for an id with no matching registry record whose file named
`id` exists in the managed directory, `serve_file` serves that file with the
id as display name and with the content type inferred from the file's
extension (`.mp3` → `audio/mpeg`, `.mp4` → `video/mp4`, otherwise
`application/octet-stream`), leaving the state unchanged; the generic-type
direct branch is not reached because `get_file_info` already returns the
synthetic record for such a file. -/
theorem C7_serve_unregistered (st : State) (now : Nat) (file_id : String)
    (hnomatch : findMatch st.registry file_id = none)
    (hdisk : get_file_path file_id ∈ st.disk) :
    serve_file st now file_id =
      (ServeResult.response
        ⟨get_file_path file_id, file_id, mediaTypeFor (get_file_path file_id)⟩,
       st) := by
  have hc : st.disk.contains (get_file_path file_id) = true := by simpa using hdisk
  have hg : get_file_info st now file_id =
      (LookupResult.synthetic ⟨file_id, file_id, get_file_path file_id, "unknown"⟩,
       st) := by
    simp only [get_file_info, hnomatch]
    simp [hc, hdisk]
  simp only [serve_file, hg]
  simp [hc, hdisk]

/-- C7, witness: the unregistered on-disk `a.mp3` is served with the
extension-inferred media type and the id as display name. -/
theorem C7_witness :
    serve_file stDiskOnly 0 "a.mp3" =
      (ServeResult.response
        ⟨get_file_path "a.mp3", "a.mp3", mediaTypeFor (get_file_path "a.mp3")⟩,
       stDiskOnly) :=
  C7_serve_unregistered stDiskOnly 0 "a.mp3" (by decide) (by decide)

/-- C8, amended: a lookup immediately after a successful registration
returns the registered record, with `now < expires_at` (TTL the configured
`FILE_EXPIRY_SECONDS = 300`), provided no already-stored record's key shares
the new record's base; when an earlier-inserted record's base collides, that
earlier record is returned instead (`C8_counterexample`). -/
theorem C8_register_lookup (st : State) (now : Nat)
    (filename original_filename file_type : String)
    (info : FileInfo) (st2 : State)
    (hok : register_file st now filename original_filename file_type =
      Except.ok (info, st2))
    (hnoshadow : ∀ e ∈ st.registry, baseOf e.1 ≠ baseOf info.id) :
    (get_file_info st2 now info.id).1 = LookupResult.record info ∧
    now < info.expires_at := by
  obtain ⟨hpath, hexpires, hdisk2, hreg, hdiskeq, _⟩ := register_file_ok_spec hok
  have h300 : FILE_EXPIRY_SECONDS = 300 := rfl
  have hnokey : st.registry.any (fun e => e.1 == info.id) = false := by
    rw [List.any_eq_false]
    intro e he hbe
    have hkey : e.1 = info.id := by simpa using hbe
    exact hnoshadow e he (by rw [hkey])
  have hins : insertReg st.registry info.id info
      = st.registry ++ [(info.id, info)] := by
    unfold insertReg
    rw [if_neg (by simp [hnokey])]
  have h1 : st.registry.find?
      (fun e => e.1 == info.id || baseOf e.1 == baseOf info.id) = none := by
    rw [List.find?_eq_none]
    intro e he hp
    simp at hp
    rcases hp with h | h
    · exact hnoshadow e he (by rw [h])
    · exact hnoshadow e he h
  have h2 : [(info.id, info)].find?
      (fun e => e.1 == info.id || baseOf e.1 == baseOf info.id)
      = some (info.id, info) := by
    apply List.find?_cons_of_pos
    simp
  have hfind : findMatch st2.registry info.id = some (info.id, info) := by
    unfold findMatch
    rw [hreg, hins, List.find?_append, h1, h2]
    rfl
  have hlt : ¬ now > info.expires_at := by
    rw [hexpires]
    omega
  have hcont : st2.disk.contains info.path = true := by
    rw [hdiskeq, hpath]
    simpa using hdisk2
  have hmem2 : info.path ∈ st2.disk := by
    rw [hdiskeq, hpath]
    exact hdisk2
  constructor
  · simp only [get_file_info, hfind]
    rw [if_neg hlt]
    simp [hcont, hmem2]
  · rw [hexpires]
    omega

/-- C8, witness: registering `a1b2.mp4` on an empty registry and looking it
up immediately returns the same record, still unexpired. -/
theorem C8_witness :
    (get_file_info stAfterOne 0 "a1b2.mp4").1 = LookupResult.record infoA1b2 ∧
    (0 : Nat) < infoA1b2.expires_at :=
  C8_register_lookup stOneFile 0 "a1b2.mp4" "movie" "video" infoA1b2 stAfterOne
    rfl (by decide)

/-- C10, amended: a file on disk in the managed directory whose id matches no
registry record (no stored key equals it or shares its base) and at whose
path no record points is exempt from TTL reclamation at every time `now`:
`get_file_info` returns the synthetic type-`"unknown"` record (which carries
no expiry fields) leaving the state unchanged, `cleanup_expired_files` never
deletes the file, and `serve_file` serves it leaving registry and file
untouched; without those provisos a base-colliding registered record answers
instead (`C10_counterexample`). -/
theorem C10_unregistered_exempt (st : State) (now : Nat) (file_id : String)
    (hdisk : get_file_path file_id ∈ st.disk)
    (hnomatch : findMatch st.registry file_id = none)
    (hpaths : ∀ e ∈ st.registry, e.2.path ≠ get_file_path file_id) :
    get_file_info st now file_id =
      (LookupResult.synthetic ⟨file_id, file_id, get_file_path file_id, "unknown"⟩,
       st) ∧
    get_file_path file_id ∈ (cleanup_expired_files st now).2.disk ∧
    serve_file st now file_id =
      (ServeResult.response
        ⟨get_file_path file_id, file_id, mediaTypeFor (get_file_path file_id)⟩,
       st) := by
  have hc : st.disk.contains (get_file_path file_id) = true := by simpa using hdisk
  have hg : get_file_info st now file_id =
      (LookupResult.synthetic ⟨file_id, file_id, get_file_path file_id, "unknown"⟩,
       st) := by
    simp only [get_file_info, hnomatch]
    simp [hc, hdisk]
  refine ⟨hg, ?_, ?_⟩
  · show get_file_path file_id ∈ (removeAll st (expiredIds st now)).disk
    apply removeAll_disk_keep
    · exact hdisk
    · intro e he _
      exact hpaths e he
  · simp only [serve_file, hg]
    simp [hc, hdisk]

/-- C10, witness: the unregistered `a.mp3` survives a sweep at time 777 and
is still served with the synthetic record and untouched state. -/
theorem C10_witness :
    get_file_info stDiskOnly 777 "a.mp3" =
      (LookupResult.synthetic ⟨"a.mp3", "a.mp3", get_file_path "a.mp3", "unknown"⟩,
       stDiskOnly) ∧
    get_file_path "a.mp3" ∈ (cleanup_expired_files stDiskOnly 777).2.disk ∧
    serve_file stDiskOnly 777 "a.mp3" =
      (ServeResult.response
        ⟨get_file_path "a.mp3", "a.mp3", mediaTypeFor (get_file_path "a.mp3")⟩,
       stDiskOnly) :=
  C10_unregistered_exempt stDiskOnly 777 "a.mp3" (by decide) (by decide) (by decide)

end FileManager
